import Mathlib

/-!
Verification of the in-memory storage layer of an embedded analytical query
engine (files `src/storage/memory/table.rs` and `src/binder/expression/mod.rs`),
as a shallow embedding in Lean 4.

Modelling conventions:
- Rust `&mut self` methods become state-passing functions returning
  `result × state`; `&self` methods become pure functions of the state.
- `Result<T, E>` becomes `Except E T`; a Rust panic (`panic!`, `unwrap()` on
  `Err`) is a distinct outcome, modelled by `Outcome.panicked`, since it is not
  a value the caller can inspect.
- `HashSet<usize>` becomes `Finset Nat`; `HashMap<ColumnId, ColumnDesc>` becomes
  an association list with replace-on-insert, so that `collect` keeps the last
  binding for a duplicated key, exactly as `HashMap::from_iter` does.
- `Arc<RwLock<InMemoryTableInner>>` becomes an address into an explicit store of
  lock cells; an `RwLock` cell carries a `poisoned` flag, and acquiring a
  poisoned lock yields `Err(PoisonError)`, which `unwrap()` turns into a panic.
- Machine integers: `ColumnId` (`u32`) and row ids (`usize`) are `Nat`; the
  stored `i32` value of an integer literal is an `Int` whose range is checked by
  the parse function itself, as `str::parse::<i32>` does.
-/

/-- Result of running a Rust computation that may panic: either a normal value
or a process panic carrying the panic message.  A panic is not an inspectable
error value; it aborts the caller. -/
inductive Outcome (α : Type) where
  | panicked (msg : String)
  | ret (v : α)
deriving DecidableEq

/-- `ColumnId` is `u32` in the source; modelled as `Nat`. -/
abbrev ColumnId := Nat

/-- Modelled from the spec: `ColumnDesc` lives in the catalog crate, outside
`src/`; per §3 it is column metadata (name, declared data type,
nullability/attributes), immutable after construction.  The storage layer only
ever copies and compares descriptors, so the exact fields are irrelevant to the
claims; we carry the three named by the spec. -/
structure ColumnDesc where
  name : String
  datatype : String
  nullable : Bool
deriving DecidableEq

/-- Modelled from the spec: `ColumnCatalog` is catalog-side, outside `src/`.
The storage code uses only its `id()` and `desc()` accessors (table.rs,
`InMemoryTableInner::new`), so it is a pair of a `ColumnId` and a
`ColumnDesc`. -/
structure ColumnCatalog where
  id : ColumnId
  desc : ColumnDesc
deriving DecidableEq

/-- Modelled from the spec: `TableRefId` is catalog-side, outside `src/`;
per §3 it is a globally unique table identifier, immutable for the table's
lifetime.  Storage only stores and returns it. -/
structure TableRefId where
  tid : Nat
deriving DecidableEq

/-- The storage-level error type.  The only variant the storage code in `src/`
constructs is `InvalidColumn` (table.rs, `column_descs`). -/
inductive StorageError where
  | invalidColumn (id : ColumnId)
deriving DecidableEq

abbrev StorageResult (α : Type) := Except StorageError α

/-- A `DataValue` as constructed by `impl From<&Value> for DataValue`
(binder/expression/mod.rs).  The numeric value of a `Float64` is a floating
point number; floating point semantics are outside the shallow embedding, so
the constructor carries the literal it was parsed from — no claim depends on
the numeric value of a float, only on which constructor is produced. -/
inductive DataValue where
  | int32 (i : Int)
  | float64 (lit : String)
  | str (s : String)
  | bool (b : Bool)
  | null
deriving DecidableEq

/-- A `DataChunk`: an immutable columnar batch of rows.  The storage layer
never inspects its contents (table.rs: "The BaseTable will not validate the
datachunk"), so any concrete value type works; we take a row-major list of
values, matching the spec's "ordered batch of rows". -/
structure DataChunk where
  rows : List (List DataValue)
deriving DecidableEq

/-- Replace-on-insert for the association-list model of
`HashMap<ColumnId, ColumnDesc>`: any existing binding of the key is removed and
the new binding appended. -/
def hmInsert (m : List (ColumnId × ColumnDesc)) (k : ColumnId) (v : ColumnDesc) :
    List (ColumnId × ColumnDesc) :=
  m.filter (fun p => p.1 != k) ++ [(k, v)]

/-- Key lookup in the association-list model of the column `HashMap`. -/
def hmGet (m : List (ColumnId × ColumnDesc)) (k : ColumnId) : Option ColumnDesc :=
  (m.find? (fun p => p.1 == k)).map (fun p => p.2)

/-- `columns.iter().map(|col| (col.id(), col.desc().clone())).collect()`:
builds the column map by inserting each catalog entry in order. -/
def collectColumns (cols : List ColumnCatalog) : List (ColumnId × ColumnDesc) :=
  cols.foldl (fun m c => hmInsert m c.id c.desc) []

/-- `InMemoryTableInner` (table.rs): the chunk sequence, the tombstone set and
the column map. -/
structure InMemoryTableInner where
  chunks : List DataChunk
  deleted_rows : Finset Nat
  columns : List (ColumnId × ColumnDesc)
deriving DecidableEq

namespace InMemoryTableInner

/-- `InMemoryTableInner::new` (table.rs lines 28–37). -/
def new (columns : List ColumnCatalog) : InMemoryTableInner :=
  { chunks := [], columns := collectColumns columns, deleted_rows := ∅ }

/-- `InMemoryTableInner::append` (table.rs lines 39–44): pushes the chunk and
returns `Ok(())`; no validation of the chunk. -/
def append (s : InMemoryTableInner) (chunk : DataChunk) :
    StorageResult Unit × InMemoryTableInner :=
  (.ok (), { s with chunks := s.chunks ++ [chunk] })

/-- `InMemoryTableInner::delete` (table.rs lines 46–49): inserts the row id
into the tombstone set and returns `Ok(())`. -/
def delete (s : InMemoryTableInner) (row_id : Nat) :
    StorageResult Unit × InMemoryTableInner :=
  (.ok (), { s with deleted_rows := insert row_id s.deleted_rows })

/-- `InMemoryTableInner::get_all_chunks` (table.rs lines 51–53): a copy of the
current chunk sequence. -/
def get_all_chunks (s : InMemoryTableInner) : List DataChunk :=
  s.chunks

/-- `InMemoryTableInner::get_all_deleted_rows` (table.rs lines 55–57): a copy
of the current tombstone set. -/
def get_all_deleted_rows (s : InMemoryTableInner) : Finset Nat :=
  s.deleted_rows

/-- `InMemoryTableInner::column_descs` (table.rs lines 59–68):
`ids.iter().map(|id| lookup id).try_collect()` — left-to-right lookup, stopping
at the first absent id with `Err(InvalidColumn(*id))`, otherwise collecting the
descriptors in request order. -/
def column_descs (s : InMemoryTableInner) : List ColumnId → StorageResult (List ColumnDesc)
  | [] => .ok []
  | i :: rest =>
    match hmGet s.columns i with
    | none => .error (.invalidColumn i)
    | some d =>
      match s.column_descs rest with
      | .ok ds => .ok (d :: ds)
      | .error e => .error e

end InMemoryTableInner

/-- Folds a sequence of `append` calls over an inner state (each call's result
is `Ok(())`, proved separately). -/
def appendAll (s : InMemoryTableInner) (cs : List DataChunk) : InMemoryTableInner :=
  cs.foldl (fun st c => (st.append c).2) s

/-- An `RwLock<InMemoryTableInner>` cell: the protected value together with the
standard-library poison flag.  `read()`/`write()` on a poisoned lock return
`Err(PoisonError)`. -/
structure LockedInner where
  poisoned : Bool
  value : InMemoryTableInner
deriving DecidableEq

/-- The heap of `Arc<RwLock<InMemoryTableInner>>` allocations; an
`InMemoryTableInnerRef` is an index into it. -/
abbrev Store := List LockedInner

/-- `InMemoryTable` (table.rs lines 11–17): a table id plus a shared reference
(`Arc`) to the lock-protected inner state, here an address into the `Store`. -/
structure InMemoryTable where
  table_ref_id : TableRefId
  inner : Nat
deriving DecidableEq

namespace InMemoryTable

/-- `#[derive(Clone)]` on `InMemoryTable`: field-wise clone; `Arc::clone` on
`inner` yields a pointer to the same allocation, so the clone carries the same
address.  Cloning reads and writes no table state. -/
def clone (t : InMemoryTable) : InMemoryTable :=
  { table_ref_id := t.table_ref_id, inner := t.inner }

/-- `InMemoryTable::new` (table.rs lines 72–77): allocates a fresh, unpoisoned
`RwLock<InMemoryTableInner>` seeded from the catalog and returns a handle to
it. -/
def new (table_ref_id : TableRefId) (columns : List ColumnCatalog) (st : Store) :
    InMemoryTable × Store :=
  ({ table_ref_id := table_ref_id, inner := st.length },
   st ++ [{ poisoned := false, value := InMemoryTableInner.new columns }])

/-- `Table::table_id` for `InMemoryTable` (table.rs lines 89–91). -/
def table_id (t : InMemoryTable) : TableRefId :=
  t.table_ref_id

/-- `Table::column_descs` for `InMemoryTable` (table.rs lines 84–87):
`self.inner.read().unwrap()` then delegation to the inner lookup.  A poisoned
lock makes `read()` return `Err(PoisonError)` and `unwrap()` turn that into a
panic; a dangling address cannot arise for handles produced by `new` but is
mapped to a panic for totality. -/
def column_descs (t : InMemoryTable) (ids : List ColumnId) (st : Store) :
    Outcome (StorageResult (List ColumnDesc)) :=
  match st[t.inner]? with
  | none => .panicked ("dangling inner reference")
  | some l =>
    if l.poisoned then .panicked ("PoisonError")
    else .ret (l.value.column_descs ids)

end InMemoryTable

/-- C1: every `append` returns `Ok(())` regardless of the chunk and the state
(no validation), and after any sequence of appends `get_all_chunks` returns the
prior chunk sequence extended by exactly the appended chunks, in append order —
in particular, from a fresh table it returns exactly the appended chunks,
omitting and reordering none. -/
theorem c1_append_monotonicity (s : InMemoryTableInner) (cs : List DataChunk)
    (cols : List ColumnCatalog) :
    (∀ (s0 : InMemoryTableInner) (c : DataChunk), (s0.append c).1 = .ok ()) ∧
    (appendAll s cs).get_all_chunks = s.get_all_chunks ++ cs ∧
    (appendAll (InMemoryTableInner.new cols) cs).get_all_chunks = cs := by
  have key : ∀ (cs : List DataChunk) (s : InMemoryTableInner),
      (appendAll s cs).get_all_chunks = s.get_all_chunks ++ cs := by
    intro cs
    induction cs with
    | nil => intro s; simp [appendAll, InMemoryTableInner.get_all_chunks]
    | cons c rest ih =>
      intro s
      simp only [appendAll, List.foldl_cons] at *
      rw [ih]
      simp [InMemoryTableInner.append, InMemoryTableInner.get_all_chunks]
  refine ⟨fun s0 c => rfl, key cs s, ?_⟩
  rw [key cs (InMemoryTableInner.new cols)]
  simp [InMemoryTableInner.new, InMemoryTableInner.get_all_chunks]

/-- C3: `delete` always returns `Ok(())` — also for a row id that was never
appended — and deleting the same row id twice yields the same tombstone set as
deleting it once (idempotence); the second call succeeds and changes
nothing. -/
theorem c3_delete_idempotent (s : InMemoryTableInner) (r : Nat) :
    ((s.delete r).1 = .ok ()) ∧
    (((s.delete r).2.delete r).1 = .ok ()) ∧
    ((s.delete r).2.delete r).2.deleted_rows = (s.delete r).2.deleted_rows := by
  refine ⟨rfl, rfl, ?_⟩
  simp [InMemoryTableInner.delete]

theorem column_descs_ok_of_all_present (s : InMemoryTableInner) :
    ∀ ids : List ColumnId, (∀ i ∈ ids, (hmGet s.columns i).isSome) →
      ∃ ds, s.column_descs ids = .ok ds ∧
        List.Forall₂ (fun i d => hmGet s.columns i = some d) ids ds
  | [], _ => ⟨[], rfl, .nil⟩
  | i :: rest, h => by
    have hi := h i (by simp)
    obtain ⟨d, hd⟩ := Option.isSome_iff_exists.mp hi
    obtain ⟨ds, hds, hall⟩ :=
      column_descs_ok_of_all_present s rest (fun j hj => h j (by simp [hj]))
    exact ⟨d :: ds, by simp [InMemoryTableInner.column_descs, hd, hds], .cons hd hall⟩

theorem column_descs_error_of_absent (s : InMemoryTableInner) :
    ∀ ids : List ColumnId, ∀ i ∈ ids, hmGet s.columns i = none →
      ∃ j, j ∈ ids ∧ hmGet s.columns j = none ∧
        s.column_descs ids = .error (.invalidColumn j) := by
  intro ids
  induction ids with
  | nil => intro i hi; simp at hi
  | cons a rest ih =>
    intro i hi hnone
    cases ha : hmGet s.columns a with
    | none =>
      exact ⟨a, by simp, ha, by simp [InMemoryTableInner.column_descs, ha]⟩
    | some d =>
      have hir : i ∈ rest := by
        rcases List.mem_cons.mp hi with h1 | h1
        · subst h1; rw [ha] at hnone; cases hnone
        · exact h1
      obtain ⟨j, hj1, hj2, hj3⟩ := ih i hir hnone
      refine ⟨j, by simp [hj1], hj2, ?_⟩
      simp [InMemoryTableInner.column_descs, ha, hj3]

/-- C2: when every requested id is present in the column map, `column_descs`
returns exactly the descriptor of each requested id, in request order
(`Forall₂` of the lookup relation); when some requested id is absent, it
returns an unknown-column error (`InvalidColumn j` for an absent requested id
`j`) and hence no descriptors at all, even if other requested ids are valid. -/
theorem c2_column_descs (s : InMemoryTableInner) (ids : List ColumnId) :
    ((∀ i ∈ ids, (hmGet s.columns i).isSome) →
      ∃ ds, s.column_descs ids = .ok ds ∧
        List.Forall₂ (fun i d => hmGet s.columns i = some d) ids ds) ∧
    (∀ i ∈ ids, hmGet s.columns i = none →
      ∃ j, j ∈ ids ∧ hmGet s.columns j = none ∧
        s.column_descs ids = .error (.invalidColumn j)) :=
  ⟨column_descs_ok_of_all_present s ids, column_descs_error_of_absent s ids⟩

/-- A sample descriptor used to instantiate theorems with hypotheses. -/
def descA : ColumnDesc := { name := "id", datatype := "INT", nullable := false }

/-- A second sample descriptor. -/
def descB : ColumnDesc := { name := "name", datatype := "VARCHAR", nullable := true }

/-- A sample inner state with columns `0 ↦ descA` and `1 ↦ descB`. -/
def innerAB : InMemoryTableInner :=
  InMemoryTableInner.new [{ id := 0, desc := descA }, { id := 1, desc := descB }]

theorem c2_column_descs_witness :
    (∃ ds, innerAB.column_descs [0, 1] = .ok ds ∧
      List.Forall₂ (fun i d => hmGet innerAB.columns i = some d) [0, 1] ds) ∧
    (∃ j, j ∈ [0, 7] ∧ hmGet innerAB.columns j = none ∧
      innerAB.column_descs [0, 7] = .error (.invalidColumn j)) :=
  ⟨(c2_column_descs innerAB [0, 1]).1 (by decide),
   (c2_column_descs innerAB [0, 7]).2 7 (by decide) (by decide)⟩

theorem foldl_hmInsert (cols : List ColumnCatalog) :
    ∀ acc : List (ColumnId × ColumnDesc),
      (cols.map ColumnCatalog.id).Nodup →
      (∀ c ∈ cols, ∀ p ∈ acc, p.1 ≠ c.id) →
      cols.foldl (fun m c => hmInsert m c.id c.desc) acc
        = acc ++ cols.map (fun c => (c.id, c.desc)) := by
  induction cols with
  | nil => intro acc _ _; simp
  | cons c rest ih =>
    intro acc hnd hdisj
    have hstep : hmInsert acc c.id c.desc = acc ++ [(c.id, c.desc)] := by
      unfold hmInsert
      congr 1
      apply List.filter_eq_self.mpr
      intro p hp
      simpa using hdisj c (by simp) p hp
    have hnd' : (rest.map ColumnCatalog.id).Nodup := (List.nodup_cons.mp hnd).2
    have hhead : c.id ∉ rest.map ColumnCatalog.id := (List.nodup_cons.mp hnd).1
    have hdisj' : ∀ c' ∈ rest, ∀ p ∈ acc ++ [(c.id, c.desc)], p.1 ≠ c'.id := by
      intro c' hc' p hp
      rcases List.mem_append.mp hp with h1 | h1
      · exact hdisj c' (by simp [hc']) p h1
      · simp at h1
        subst h1
        intro heq
        apply hhead
        rw [show c.id = c'.id from heq]
        exact List.mem_map.mpr ⟨c', hc', rfl⟩
    simp only [List.foldl_cons, hstep, ih (acc ++ [(c.id, c.desc)]) hnd' hdisj']
    simp

/-- C6: for a catalog whose column ids are distinct (the spec's ColumnId
uniqueness invariant), a fresh table has an empty chunk sequence, an empty
tombstone set, and a column map holding exactly the (id, descriptor) pairs of
the catalog; `table_id` returns the given id; the handle's fresh lock cell
holds that inner state, unpoisoned; and no mutating operation (`append`,
`delete`) ever changes the column map. -/
theorem c6_new_table (tid : TableRefId) (cols : List ColumnCatalog) (st : Store)
    (h : (cols.map ColumnCatalog.id).Nodup) :
    (InMemoryTableInner.new cols).chunks = [] ∧
    (InMemoryTableInner.new cols).deleted_rows = ∅ ∧
    (InMemoryTableInner.new cols).columns = cols.map (fun c => (c.id, c.desc)) ∧
    (InMemoryTable.new tid cols st).1.table_id = tid ∧
    (InMemoryTable.new tid cols st).2[(InMemoryTable.new tid cols st).1.inner]?
        = some { poisoned := false, value := InMemoryTableInner.new cols } ∧
    (∀ (s : InMemoryTableInner) (c : DataChunk) (r : Nat),
      (s.append c).2.columns = s.columns ∧ (s.delete r).2.columns = s.columns) := by
  refine ⟨rfl, rfl, ?_, rfl, ?_, ?_⟩
  · exact foldl_hmInsert cols [] h (by simp)
  · simp [InMemoryTable.new]
  · intro s c r
    exact ⟨rfl, rfl⟩

theorem c6_new_table_witness :
    (InMemoryTableInner.new [{ id := 0, desc := descA }, { id := 1, desc := descB }]).chunks
        = [] ∧
    (InMemoryTableInner.new [{ id := 0, desc := descA }, { id := 1, desc := descB }]).deleted_rows
        = ∅ ∧
    (InMemoryTableInner.new [{ id := 0, desc := descA }, { id := 1, desc := descB }]).columns
        = [(0, descA), (1, descB)] ∧
    (InMemoryTable.new ⟨42⟩ [{ id := 0, desc := descA }, { id := 1, desc := descB }] []).1.table_id
        = ⟨42⟩ ∧
    (InMemoryTable.new ⟨42⟩ [{ id := 0, desc := descA }, { id := 1, desc := descB }] []).2[
        (InMemoryTable.new ⟨42⟩ [{ id := 0, desc := descA }, { id := 1, desc := descB }] []).1.inner]?
        = some { poisoned := false,
                 value := InMemoryTableInner.new
                   [{ id := 0, desc := descA }, { id := 1, desc := descB }] } ∧
    (∀ (s : InMemoryTableInner) (c : DataChunk) (r : Nat),
      (s.append c).2.columns = s.columns ∧ (s.delete r).2.columns = s.columns) := by
  have h := c6_new_table ⟨42⟩ [{ id := 0, desc := descA }, { id := 1, desc := descB }] []
    (by decide)
  exact ⟨h.1, h.2.1, by rw [h.2.2.1]; rfl, h.2.2.2.1, h.2.2.2.2.1, h.2.2.2.2.2⟩

/-- The three intended access modes of spec §4.4/§4.5. -/
inductive AccessMode where
  | read
  | write
  | update
deriving DecidableEq

/-- Modelled from the spec: `InMemoryTransaction` (the `Transaction` session
object) is not under `src/`; only its caller is.  Per spec §4.5 its operations
"mirror TableInner's" and mutations "take effect directly on TableInner" (not
buffered), and per the caller (table.rs lines 93–103) its constructor `start`
receives exactly one argument — the table handle — so the session records a
reference to its table and nothing else; in particular no access-mode tag can
be recorded, because `read`, `write` and `update` invoke `start`
identically. -/
structure InMemoryTransaction where
  table : InMemoryTable
deriving DecidableEq

/-- `InMemoryTransaction::start(self)`: enters the session's Active state; per
spec §4.5 this happens the instant `read`/`write`/`update` returns, with no
failure path described. -/
def InMemoryTransaction.start (t : InMemoryTable) :
    StorageResult InMemoryTransaction :=
  .ok { table := t }

/-- `Table::read` for `InMemoryTable` (table.rs lines 99–101):
`Ok(InMemoryTransaction::start(self)?)`. -/
def InMemoryTable.read (t : InMemoryTable) : StorageResult InMemoryTransaction :=
  InMemoryTransaction.start t

/-- `Table::write` for `InMemoryTable` (table.rs lines 95–97): identical to
`read`. -/
def InMemoryTable.write (t : InMemoryTable) : StorageResult InMemoryTransaction :=
  InMemoryTransaction.start t

/-- `Table::update` for `InMemoryTable` (table.rs lines 103–105): identical to
`read`. -/
def InMemoryTable.update (t : InMemoryTable) : StorageResult InMemoryTransaction :=
  InMemoryTransaction.start t

/-- Modelled from the spec: `append` on an Active session acquires the table's
lock exclusively for this one call and delegates to
`InMemoryTableInner::append` (spec §4.5, §5 per-call granularity); as in every
lock acquisition of table.rs, a poisoned lock panics at the `unwrap()`. -/
def InMemoryTransaction.append (tx : InMemoryTransaction) (c : DataChunk)
    (st : Store) : Outcome (StorageResult Unit) × Store :=
  match st[tx.table.inner]? with
  | none => (.panicked ("dangling inner reference"), st)
  | some l =>
    if l.poisoned then (.panicked ("PoisonError"), st)
    else
      let r := l.value.append c
      (.ret r.1, st.set tx.table.inner { poisoned := false, value := r.2 })

/-- Modelled from the spec: `delete` on an Active session, analogous to
`InMemoryTransaction.append`. -/
def InMemoryTransaction.delete (tx : InMemoryTransaction) (row_id : Nat)
    (st : Store) : Outcome (StorageResult Unit) × Store :=
  match st[tx.table.inner]? with
  | none => (.panicked ("dangling inner reference"), st)
  | some l =>
    if l.poisoned then (.panicked ("PoisonError"), st)
    else
      let r := l.value.delete row_id
      (.ret r.1, st.set tx.table.inner { poisoned := false, value := r.2 })

/-- Modelled from the spec: chunk enumeration on an Active session acquires the
lock in shared mode for this one call and delegates to
`InMemoryTableInner::get_all_chunks`; a shared acquisition never changes the
store. -/
def InMemoryTransaction.get_all_chunks (tx : InMemoryTransaction) (st : Store) :
    Outcome (List DataChunk) × Store :=
  match st[tx.table.inner]? with
  | none => (.panicked ("dangling inner reference"), st)
  | some l =>
    if l.poisoned then (.panicked ("PoisonError"), st)
    else (.ret l.value.get_all_chunks, st)

/-- Modelled from the spec: tombstone enumeration on an Active session,
analogous to `InMemoryTransaction.get_all_chunks`. -/
def InMemoryTransaction.get_all_deleted_rows (tx : InMemoryTransaction)
    (st : Store) : Outcome (Finset Nat) × Store :=
  match st[tx.table.inner]? with
  | none => (.panicked ("dangling inner reference"), st)
  | some l =>
    if l.poisoned then (.panicked ("PoisonError"), st)
    else (.ret l.value.get_all_deleted_rows, st)

/-- A concrete table handle at store address 0, for concrete instantiations. -/
def table0 : InMemoryTable := { table_ref_id := ⟨0⟩, inner := 0 }

/-- A healthy one-cell store whose cell holds a fresh inner with no columns. -/
def store0 : Store := [{ poisoned := false, value := InMemoryTableInner.new [] }]

/-- A one-row sample chunk. -/
def chunk0 : DataChunk := { rows := [[DataValue.int32 1, DataValue.str ("a")]] }

/-- C5 (amended): each of `read`, `write` and `update` succeeds and starts a
session recording a reference to its table; all three invoke the identical
constructor, so they produce equal sessions — no access-mode tag distinguishes
them and every subsequent operation behaves identically. -/
theorem c5_modes_identical (t : InMemoryTable) :
    InMemoryTable.read t = .ok { table := t } ∧
    InMemoryTable.write t = .ok { table := t } ∧
    InMemoryTable.update t = .ok { table := t } ∧
    InMemoryTable.read t = InMemoryTable.write t ∧
    InMemoryTable.write t = InMemoryTable.update t :=
  ⟨rfl, rfl, rfl, rfl, rfl⟩

/-- C5 counterexample: no assignment of access modes to sessions can tag the
session started by `read` as read-mode and the one started by `write` as
write-mode — on the concrete table `table0` the two sessions are the very same
value, so the claim that a Transaction records "the mode it was started with"
is false. -/
theorem c5_counterexample :
    ¬ ∃ modeOf : InMemoryTransaction → AccessMode,
      ∀ txr txw : InMemoryTransaction,
        InMemoryTable.read table0 = .ok txr →
        InMemoryTable.write table0 = .ok txw →
        modeOf txr = AccessMode.read ∧ modeOf txw = AccessMode.write := by
  rintro ⟨f, hf⟩
  obtain ⟨h1, h2⟩ := hf { table := table0 } { table := table0 } rfl rfl
  rw [h1] at h2
  cases h2

/-- C4 counterexample: on the concrete table `table0` over the healthy store
`store0`, the session started by `read()` is `{ table := table0 }`, and
`append` on that read-started session returns `Ok(())` and changes the table
state (the chunk list grows) — it fails with no error at all, and no
`InvalidTransactionMode` variant even exists in `StorageError`. -/
theorem c4_counterexample :
    InMemoryTable.read table0 = .ok { table := table0 } ∧
    (InMemoryTransaction.append { table := table0 } chunk0 store0).1
        = .ret (.ok ()) ∧
    (InMemoryTransaction.append { table := table0 } chunk0 store0).2 ≠ store0 := by
  refine ⟨rfl, rfl, ?_⟩
  decide

/-- C4 (amended): a mutating operation invoked on a read-started session does
not fail and does mutate the table state: the session is equal to a
write-started one, and on any healthy (allocated, unpoisoned) table its
`append` and `delete` return `Ok(())` and update the shared inner state exactly
as the corresponding `InMemoryTableInner` operation does. -/
theorem c4_read_session_mutates (t : InMemoryTable) (st : Store)
    (l : LockedInner) (c : DataChunk) (r : Nat)
    (h : st[t.inner]? = some l) (hp : l.poisoned = false) :
    InMemoryTable.read t = InMemoryTable.write t ∧
    (∀ tx : InMemoryTransaction, InMemoryTable.read t = .ok tx →
      (tx.append c st).1 = .ret (.ok ()) ∧
      (tx.append c st).2
          = st.set t.inner { poisoned := false, value := (l.value.append c).2 } ∧
      (tx.delete r st).1 = .ret (.ok ()) ∧
      (tx.delete r st).2
          = st.set t.inner { poisoned := false, value := (l.value.delete r).2 }) := by
  refine ⟨rfl, ?_⟩
  intro tx htx
  have htx' : (Except.ok { table := t } : StorageResult InMemoryTransaction)
      = .ok tx := htx
  cases htx'
  refine ⟨?_, ?_, ?_, ?_⟩ <;>
    simp [InMemoryTransaction.append, InMemoryTransaction.delete, h, hp,
      InMemoryTableInner.append, InMemoryTableInner.delete]

theorem c4_read_session_mutates_witness :
    (store0[table0.inner]?
        = some { poisoned := false, value := InMemoryTableInner.new [] }) ∧
    (InMemoryTable.read table0 = InMemoryTable.write table0 ∧
      ∀ tx : InMemoryTransaction, InMemoryTable.read table0 = .ok tx →
        (tx.append chunk0 store0).1 = .ret (.ok ()) ∧
        (tx.append chunk0 store0).2 = store0.set table0.inner
            { poisoned := false,
              value := ((InMemoryTableInner.new []).append chunk0).2 } ∧
        (tx.delete 1 store0).1 = .ret (.ok ()) ∧
        (tx.delete 1 store0).2 = store0.set table0.inner
            { poisoned := false,
              value := ((InMemoryTableInner.new []).delete 1).2 }) :=
  ⟨rfl, c4_read_session_mutates table0 store0
    { poisoned := false, value := InMemoryTableInner.new [] } chunk0 1 rfl rfl⟩

/-- C9: cloning a table handle is pure (it neither reads nor writes the store)
and yields the very same handle — same table id, same shared inner address; in
fact `t.clone = t`.  Consequently, on a healthy table, a chunk appended and a
row deleted through a session started from `t` are observable through
`get_all_chunks`/`get_all_deleted_rows` reached via a session started from the
clone. -/
theorem c9_clone_shares (t : InMemoryTable) (st : Store) (l : LockedInner)
    (c : DataChunk) (r : Nat)
    (h : st[t.inner]? = some l) (hp : l.poisoned = false) :
    t.clone = t ∧
    t.clone.table_id = t.table_id ∧
    t.clone.inner = t.inner ∧
    (∀ tx tx' : InMemoryTransaction,
      InMemoryTable.write t = .ok tx →
      InMemoryTable.read t.clone = .ok tx' →
      (tx'.get_all_chunks (tx.append c st).2).1 = .ret (l.value.chunks ++ [c]) ∧
      (tx'.get_all_deleted_rows (tx.delete r st).2).1
          = .ret (insert r l.value.deleted_rows)) := by
  have hlen : t.inner < st.length := by
    by_contra hc
    push_neg at hc
    rw [List.getElem?_eq_none hc] at h
    cases h
  refine ⟨rfl, rfl, rfl, ?_⟩
  intro tx tx' htx htx'
  have etx : (Except.ok { table := t } : StorageResult InMemoryTransaction)
      = .ok tx := htx
  have etx' : (Except.ok { table := t.clone } : StorageResult InMemoryTransaction)
      = .ok tx' := htx'
  cases etx
  cases etx'
  have hset : ∀ v : InMemoryTableInner,
      (st.set t.inner { poisoned := false, value := v })[t.inner]?
        = some { poisoned := false, value := v } :=
    fun v => List.getElem?_set_eq_of_lt _ hlen
  constructor
  · simp [InMemoryTransaction.append, InMemoryTransaction.get_all_chunks, h, hp,
      InMemoryTable.clone, hset, InMemoryTableInner.append,
      InMemoryTableInner.get_all_chunks]
  · simp [InMemoryTransaction.delete, InMemoryTransaction.get_all_deleted_rows,
      h, hp, InMemoryTable.clone, hset, InMemoryTableInner.delete,
      InMemoryTableInner.get_all_deleted_rows]

theorem c9_clone_shares_witness :
    (store0[table0.inner]?
        = some { poisoned := false, value := InMemoryTableInner.new [] }) ∧
    table0.clone = table0 ∧
    table0.clone.table_id = table0.table_id ∧
    table0.clone.inner = table0.inner ∧
    (∀ tx tx' : InMemoryTransaction,
      InMemoryTable.write table0 = .ok tx →
      InMemoryTable.read table0.clone = .ok tx' →
      (tx'.get_all_chunks (tx.append chunk0 store0).2).1
          = .ret ((InMemoryTableInner.new []).chunks ++ [chunk0]) ∧
      (tx'.get_all_deleted_rows (tx.delete 3 store0).2).1
          = .ret (insert 3 (InMemoryTableInner.new []).deleted_rows)) :=
  ⟨rfl, c9_clone_shares table0 store0
    { poisoned := false, value := InMemoryTableInner.new [] } chunk0 3 rfl rfl⟩

/-- C10: the enumeration calls modify no state — at the session level they
return the store unchanged, and at the inner level they are pure functions of
the state returning the current chunk list and tombstone set; and a snapshot
returned earlier is a value of the pre-state only: a later `append`/`delete`
produces a new observation equal to the old snapshot extended by exactly that
mutation, leaving the old snapshot itself as it was. -/
theorem c10_snapshot_frames (tx : InMemoryTransaction) (st : Store)
    (s : InMemoryTableInner) (c : DataChunk) (r : Nat) :
    (tx.get_all_chunks st).2 = st ∧
    (tx.get_all_deleted_rows st).2 = st ∧
    s.get_all_chunks = s.chunks ∧
    s.get_all_deleted_rows = s.deleted_rows ∧
    (s.append c).2.get_all_chunks = s.get_all_chunks ++ [c] ∧
    (s.append c).2.get_all_deleted_rows = s.get_all_deleted_rows ∧
    (s.delete r).2.get_all_deleted_rows = insert r s.get_all_deleted_rows ∧
    (s.delete r).2.get_all_chunks = s.get_all_chunks := by
  refine ⟨?_, ?_, rfl, rfl, rfl, rfl, rfl, rfl⟩
  · unfold InMemoryTransaction.get_all_chunks
    cases st[tx.table.inner]? with
    | none => rfl
    | some l => cases hl : l.poisoned <;> simp [hl]
  · unfold InMemoryTransaction.get_all_deleted_rows
    cases st[tx.table.inner]? with
    | none => rfl
    | some l => cases hl : l.poisoned <;> simp [hl]

/-- A poisoned one-cell store: the lock at address 0 was poisoned by a panic in
a previous holder. -/
def storePoisoned : Store := [{ poisoned := true, value := InMemoryTableInner.new [] }]

/-- C8 counterexample: on the concrete poisoned store, `column_descs` on
`table0` panics (the `unwrap()` of the poisoned `read()` acquisition) — it
returns no result value at all, in particular not a storage-level error;
`StorageError` has no lock-failure variant the code could return. -/
theorem c8_counterexample :
    InMemoryTable.column_descs table0 [] storePoisoned
        = .panicked ("PoisonError") ∧
    ∀ res : StorageResult (List ColumnDesc),
      InMemoryTable.column_descs table0 [] storePoisoned ≠ .ret res := by
  refine ⟨rfl, ?_⟩
  intro res hres
  rw [show InMemoryTable.column_descs table0 [] storePoisoned
      = .panicked ("PoisonError") from rfl] at hres
  cases hres

/-- C8 (amended): when the protecting lock is healthy, `column_descs` returns
an inspectable result to the caller (delegating to the inner lookup); when the
lock is poisoned, the operation panics at the `unwrap()` instead of returning a
lock-acquisition error — the `StorageError` type has no such variant. -/
theorem c8_lock_behavior (t : InMemoryTable) (st : Store) (l : LockedInner)
    (ids : List ColumnId) (h : st[t.inner]? = some l) :
    (l.poisoned = false →
      InMemoryTable.column_descs t ids st = .ret (l.value.column_descs ids)) ∧
    (l.poisoned = true →
      InMemoryTable.column_descs t ids st = .panicked ("PoisonError")) := by
  constructor <;> intro hp <;> simp [InMemoryTable.column_descs, h, hp]

theorem c8_lock_behavior_witness :
    (store0[table0.inner]?
        = some { poisoned := false, value := InMemoryTableInner.new [] }) ∧
    InMemoryTable.column_descs table0 [0] store0
        = .ret ((InMemoryTableInner.new []).column_descs [0]) :=
  ⟨rfl, (c8_lock_behavior table0 store0
    { poisoned := false, value := InMemoryTableInner.new [] } [0] rfl).1 rfl⟩

/-- The subset of the SQL parser's `Value` literal AST consumed by
`impl From<&Value> for DataValue` (binder/expression/mod.rs lines 62–81).
`number` carries the literal text and the parser's "long" flag, which the
conversion ignores. -/
inductive Value where
  | number (n : String) (long : Bool)
  | singleQuotedString (s : String)
  | doubleQuotedString (s : String)
  | boolean (b : Bool)
  | null
deriving DecidableEq

/-- `str::parse::<i32>`: optional sign, then one or more ASCII digits, value
within `i32` range; anything else fails. -/
def parseI32 (s : String) : Option Int :=
  let p : Int × List Char :=
    match s.data with
    | '+' :: rest => (1, rest)
    | '-' :: rest => (-1, rest)
    | l0 => (1, l0)
  if p.2.isEmpty then none
  else if p.2.all Char.isDigit then
    let n : Nat := p.2.foldl (fun acc ch => 10 * acc + (ch.toNat - 48)) 0
    let v : Int := p.1 * (n : Int)
    if -2147483648 ≤ v ∧ v ≤ 2147483647 then some v else none
  else none

/-- Nonempty all-decimal-digit check used by the float grammar. -/
def allDigits (l : List Char) : Bool :=
  !l.isEmpty && l.all Char.isDigit

/-- Exponent part of the `f64::from_str` grammar: optional sign then one or
more digits. -/
def validExp (l : List Char) : Bool :=
  let l2 :=
    match l with
    | '+' :: r => r
    | '-' :: r => r
    | r => r
  allDigits l2

/-- Mantissa of the `f64::from_str` grammar:
`Digit+ | Digit+ '.' Digit* | Digit* '.' Digit+` — equivalently: nonempty,
only digits and at most one dot, and at least one digit. -/
def validMantissa (l : List Char) : Bool :=
  !l.isEmpty && l.all (fun ch => ch.isDigit || ch == '.') &&
    decide ((l.filter (fun ch => ch == '.')).length ≤ 1) &&
    l.any Char.isDigit

/-- Number part (mantissa with optional exponent marker) of the
`f64::from_str` grammar. -/
def validFloatBody (l : List Char) : Bool :=
  let mant := l.takeWhile (fun ch => ch != 'e' && ch != 'E')
  match l.dropWhile (fun ch => ch != 'e' && ch != 'E') with
  | [] => validMantissa mant
  | _ :: expPart => validMantissa mant && validExp expPart

/-- Whether `str::parse::<f64>` succeeds: optional sign, then a
case-insensitive special value (`inf`, `infinity`, `nan`) or a decimal number
with optional exponent.  Only parse success is modelled; the floating point
value itself is outside the embedding (no claim depends on it). -/
def parseF64ok (s : String) : Bool :=
  let l :=
    match s.data with
    | '+' :: rest => rest
    | '-' :: rest => rest
    | l0 => l0
  let low := String.mk (l.map Char.toLower)
  low == "inf" || low == "infinity" || low == "nan" || validFloatBody l

/-- `impl From<&Value> for DataValue` (binder/expression/mod.rs lines 62–81):
a numeric literal tries the base-10 `i32` parse first, falls back to the `f64`
parse, and hits `panic!("invalid digit: …")` when both fail; string, boolean
and null literals map directly to their typed counterparts. -/
def dataValueFrom (v : Value) : Outcome DataValue :=
  match v with
  | .number n _ =>
    match parseI32 n with
    | some i => .ret (.int32 i)
    | none =>
      if parseF64ok n then .ret (.float64 n)
      else .panicked ("invalid digit: " ++ n)
  | .singleQuotedString s => .ret (.str s)
  | .doubleQuotedString s => .ret (.str s)
  | .boolean b => .ret (.bool b)
  | .null => .ret .null

/-- C7 counterexample: on the numeric literal `"abc"` both parses fail and the
conversion panics with `invalid digit: abc`; it produces no inspectable
bind-error result on this input — there is no error channel in the conversion
at all — contrary to the claim that a double parse failure is reported as a
bind failure the caller can inspect. -/
theorem c7_counterexample :
    dataValueFrom (Value.number ("abc") false)
        = .panicked ("invalid digit: abc") ∧
    ∀ d : DataValue, dataValueFrom (Value.number ("abc") false) ≠ .ret d := by
  refine ⟨by decide, ?_⟩
  intro d hd
  rw [show dataValueFrom (Value.number ("abc") false)
      = Outcome.panicked ("invalid digit: abc") from by decide] at hd
  cases hd

/-- C7 (amended): binding coerces a numeric literal by attempting the base-10
integer parse first (a successful `i32` parse always yields `Int32`), falling
back to the floating-point parse only when the integer parse fails; when both
parses fail the conversion panics with `invalid digit` — aborting the process
rather than returning an inspectable bind-error result — so the failure still
never reaches the storage layer. -/
theorem c7_literal_coercion (n : String) (long : Bool) :
    (∀ i : Int, parseI32 n = some i →
      dataValueFrom (Value.number n long) = .ret (.int32 i)) ∧
    (parseI32 n = none → parseF64ok n = true →
      dataValueFrom (Value.number n long) = .ret (.float64 n)) ∧
    (parseI32 n = none → parseF64ok n = false →
      dataValueFrom (Value.number n long) = .panicked ("invalid digit: " ++ n)) := by
  refine ⟨?_, ?_, ?_⟩
  · intro i hi
    simp [dataValueFrom, hi]
  · intro h1 h2
    simp [dataValueFrom, h1, h2]
  · intro h1 h2
    simp [dataValueFrom, h1, h2]

theorem c7_literal_coercion_witness :
    (parseI32 ("42") = some 42 ∧
      dataValueFrom (Value.number ("42") false) = .ret (.int32 42)) ∧
    (parseI32 ("3.14") = none ∧ parseF64ok ("3.14") = true ∧
      dataValueFrom (Value.number ("3.14") false) = .ret (.float64 ("3.14"))) ∧
    (parseI32 ("abc") = none ∧ parseF64ok ("abc") = false ∧
      dataValueFrom (Value.number ("abc") false)
          = .panicked ("invalid digit: " ++ "abc")) :=
  ⟨⟨by decide, (c7_literal_coercion ("42") false).1 42 (by decide)⟩,
   ⟨by decide, by decide,
     (c7_literal_coercion ("3.14") false).2.1 (by decide) (by decide)⟩,
   ⟨by decide, by decide,
     (c7_literal_coercion ("abc") false).2.2 (by decide) (by decide)⟩⟩
